import Mathlib

/-!
Verification of the responsive-image variant planner of gatsby-plugin-sharp
(packages/gatsby-plugin-sharp/src/index.js) and of the filesystem directory
resource provider (packages/gatsby-recipes/src/providers/fs/directory.js).

JavaScript numbers are modelled as rationals (ℚ): every arithmetic operation
the planner performs (division by 4 and 2, multiplication by 1.5 and 2,
comparisons, Math.min, Math.round) is exact on the inputs of interest, so ℚ
is a faithful shallow embedding of the numeric pipeline.  Thrown exceptions
are modelled with Except String; JavaScript undefined is modelled with
Option.
-/

namespace Sharp

/-- The sizing options of a fluid call, after healing (healOptions merges the
plugin defaults into the caller arguments; it lives outside this fragment).
Absent (undefined) fields are None.  Only the fields the planner reads are
modelled: maxWidth, maxHeight, srcSetBreakpoints, fit and sizes. -/
structure FluidOptions where
  maxWidth : Option ℚ
  maxHeight : Option ℚ
  srcSetBreakpoints : List ℚ
  fit : String
  sizes : Option String
deriving DecidableEq

/-- The two possible fixed-dimension axes of a fluid call. -/
inductive Dim where
  | maxWidth
  | maxHeight
deriving DecidableEq

/-- Line 454: the fixed dimension is maxHeight exactly when options.maxWidth
is undefined, otherwise maxWidth. -/
def fixedDimension (o : FluidOptions) : Dim :=
  if o.maxWidth = none then Dim.maxHeight else Dim.maxWidth

/-- The value options[fixedDimension] read by the planner. -/
def optionFixed (o : FluidOptions) : Option ℚ :=
  match fixedDimension o with
  | Dim.maxWidth => o.maxWidth
  | Dim.maxHeight => o.maxHeight

/-- Lines 456-458: maxWidth is capped at the intrinsic width; a falsy (zero)
or undefined options.maxWidth yields undefined. -/
def cappedMaxWidth (o : FluidOptions) (width : ℚ) : Option ℚ :=
  match o.maxWidth with
  | some w => if w = 0 then none else some (min w width)
  | none => none

/-- Lines 459-461: maxHeight is capped at the intrinsic height; a falsy (zero)
or undefined options.maxHeight yields undefined. -/
def cappedMaxHeight (o : FluidOptions) (height : ℚ) : Option ℚ :=
  match o.maxHeight with
  | some h => if h = 0 then none else some (min h height)
  | none => none

/-- The capped value on the fixed axis, as read at line 515
(fixedDimension === maxWidth ? maxWidth : maxHeight, the capped locals). -/
def cappedFixed (o : FluidOptions) (width height : ℚ) : Option ℚ :=
  match fixedDimension o with
  | Dim.maxWidth => cappedMaxWidth o width
  | Dim.maxHeight => cappedMaxHeight o height

/-- The intrinsic dimension on the fixed axis (line 501: width for maxWidth,
height for maxHeight). -/
def intrinsicFixed (o : FluidOptions) (width height : ℚ) : ℚ :=
  match fixedDimension o with
  | Dim.maxWidth => width
  | Dim.maxHeight => height

/-- Lines 487-498: the srcSetBreakpoints forEach loop.  Each breakpoint below
1 throws; a breakpoint already present in the accumulated list is skipped;
otherwise it is pushed.  The accumulator starts as [options[fixedDimension]]. -/
def addBreakpoints (acc : List ℚ) : List ℚ → Except String (List ℚ)
  | [] => Except.ok acc
  | b :: rest =>
    if b < 1 then
      Except.error "All ints in srcSetBreakpoints should be positive ints larger than zero (> 0)"
    else if b ∈ acc then
      addBreakpoints acc rest
    else
      addBreakpoints (acc ++ [b]) rest

/-- Lines 477-499: the candidate size list.  With no custom breakpoints the
standard ones are pushed (v/4, v/2, v*1.5, v*2 after the initial v);
otherwise the breakpoints loop runs. -/
def fluidCandidates (v : ℚ) (bps : List ℚ) : Except String (List ℚ) :=
  if bps.isEmpty then
    Except.ok [v, v / 4, v / 2, v * 1.5, v * 2]
  else
    addBreakpoints [v] bps

/-- Lines 500-508: keep candidates strictly below the intrinsic size on the
fixed axis, append the intrinsic size itself, and sort ascending
(lodash sortBy). -/
def finishSizes (intrinsic : ℚ) (candidates : List ℚ) : List ℚ :=
  ((candidates.filter (fun s => s < intrinsic)) ++ [intrinsic]).insertionSort (· ≤ ·)

/-- Lines 453-508 of fluid(): the size-planning pipeline, from the healed
options and the intrinsic metadata dimensions to the final sorted size list.
The none branch is unreachable in the real pipeline: healOptions (outside
this fragment) always supplies a default maxWidth of 800 when neither max
dimension is given; in raw JavaScript that case would poison the sizes with
NaN, and it is modelled as an error. -/
def fluidPlan (width height : ℚ) (o : FluidOptions) : Except String (List ℚ) :=
  match optionFixed o with
  | none => Except.error "maxWidth and maxHeight are both undefined"
  | some v =>
    if v < 1 then
      Except.error "has to be a positive int larger than zero (> 0)"
    else
      (fluidCandidates v o.srcSetBreakpoints).map
        (finishSizes (intrinsicFixed o width height))

/-- Lines 531-538: when both maxWidth and maxHeight are explicitly set, the
height argument of each variant transform.  With fit equal to sharp.fit.inside
(the string "inside") the ratio of the capped locals maxHeight/maxWidth is
used; otherwise the ratio of the raw options.  Math.round is round-half-up,
Mathlib's round.  When not both are set the height argument is left to the
later intrinsic-ratio derivation (getDimensionsAndAspectRatio, outside this
fragment) and is modelled as none.  The zero-falsy corner of the capped
locals (a zero maxWidth is rejected at line 463 before this point, and a
zero maxHeight would yield NaN) is outside the healed-options domain treated
here. -/
def transformHeightArg (o : FluidOptions) (width height size : ℚ) : Option ℤ :=
  match o.maxWidth, o.maxHeight with
  | some mw, some mh =>
    if o.fit = "inside" then
      some (round (size * (min mh height / min mw width)))
    else
      some (round (size * (mh / mw)))
  | _, _ => none

/-- Line 616: the default sizes attribute built from presentationWidth. -/
def defaultSizes (w : ℤ) : String :=
  "(max-width: " ++ toString w ++ "px) 100vw, " ++ toString w ++ "px"

/-- JavaScript a or-else b on strings: the empty string is falsy. -/
def jsStringOr (s : Option String) (dflt : String) : String :=
  match s with
  | some str => if str = "" then dflt else str
  | none => dflt

/-- Lines 514-516: the findIndex predicate of the density-one lookup — the
planned size equals the capped value on the fixed axis. -/
def densityOnePred (o : FluidOptions) (width height : ℚ) (s : ℚ) : Bool :=
  cappedFixed o width height = some s

/-- Lines 514-516 and 608-616 of fluid(): the density-one lookup and the
sizes attribute.  The variant widths come from prepareQueue /
getDimensionsAndAspectRatio (outside this fragment) and are abstracted as a
function variantWidth from planned size to rendered width; the images array
is the size list mapped through it.  findIdx? models findIndex (none for -1,
in which case the subsequent images[-1].width access throws, modelled as
none). -/
def fluidSizesAttr (o : FluidOptions) (variantWidth : ℚ → ℤ)
    (width height : ℚ) : Except String (Option String) :=
  (fluidPlan width height o).map (fun sorted =>
    ((sorted.findIdx? (densityOnePred o width height)).bind
      (fun i => (sorted.map variantWidth)[i]?)).map
      (fun pw => jsStringOr o.sizes (defaultSizes pw)))

/-- Lines 641-661 of fixed(): candidate sizes v, v*1.5, v*2, filtered to
those at most the intrinsic size on the fixed axis; when the filter empties
the list the intrinsic size is pushed back and a console warning is emitted
(the Bool component). -/
def fixedSizes (v intrinsic : ℚ) : List ℚ × Bool :=
  let sizes := [v, v * 1.5, v * 2]
  let filteredSizes := sizes.filter (fun s => s ≤ intrinsic)
  if filteredSizes.isEmpty then ([intrinsic], true) else (filteredSizes, false)

/-- Line 664: the surviving fixed-mode sizes sorted ascending. -/
def fixedSortedSizes (v intrinsic : ℚ) : List ℚ :=
  (fixedSizes v intrinsic).1.insertionSort (· ≤ ·)

/-- Lines 720-732: the density label switch on the position index; past
index 2 the JavaScript resolution variable stays undefined and interpolates
as the string undefined. -/
def densityLabel : ℕ → String
  | 0 => "1x"
  | 1 => "1.5x"
  | 2 => "2x"
  | _ => "undefined"

/-- Lines 718-734: the srcSet entries of fixed(), one src resolution pair
per image, labels assigned by position. -/
def fixedSrcSetEntries (srcs : List String) : List String :=
  srcs.zipWith (fun s i => s ++ " " ++ densityLabel i) (List.range srcs.length)

/-- Line 735: the srcSet string joins the entries with comma-newline. -/
def fixedSrcSet (srcs : List String) : String :=
  String.intercalate ",\n" (fixedSrcSetEntries srcs)

end Sharp

namespace Directory

/-- The filesystem state: the set of existing directories, as a list of
absolute paths. -/
abbrev FS := List String

/-- Line 7: path.join of the context root and the relative path.  The
normalisation performed by path.join does not matter to the claims here,
where makePath is only a deterministic key. -/
def makePath (root relativePath : String) : String :=
  root ++ "/" ++ relativePath

/-- Lines 9-16: fs.accessSync wrapped in try/catch — true exactly when the
path exists, never throws. -/
def directoryExists (fs : FS) (fullPath : String) : Bool :=
  fullPath ∈ fs

/-- Line 61: the message attached to a read resource. -/
def message (p : String) : String :=
  "Created directory \"" ++ p ++ "\""

/-- The resource record returned by read: id and path are both the requested
path, plus the attached message. -/
structure DirResource where
  id : String
  path : String
  msg : String
deriving DecidableEq

/-- Lines 35-45: read returns undefined (none) when the directory does not
exist, otherwise the resource record. -/
def read (root : String) (id : String) (fs : FS) : Option DirResource :=
  let fullPath := makePath root id
  if directoryExists fs fullPath then
    some { id := id, path := id, msg := message id }
  else
    none

/-- fs.ensureDir: creates the directory if missing; an existing directory is
not an error. -/
def ensureDir (fs : FS) (fullPath : String) : FS :=
  if fullPath ∈ fs then fs else fullPath :: fs

/-- Lines 18-22: create ensures the directory exists and then reads it back.
Returns the read result together with the new filesystem state. -/
def create (root : String) (directoryPath : String) (fs : FS) :
    Option DirResource × FS :=
  let fs' := ensureDir fs (makePath root directoryPath)
  (read root directoryPath fs', fs')

end Directory

namespace Sharp

theorem addBreakpoints_ok_sup {bps : List ℚ} :
    ∀ {acc l : List ℚ}, addBreakpoints acc bps = Except.ok l →
      ∀ x ∈ acc, x ∈ l := by
  induction bps with
  | nil =>
    intro acc l h x hx
    simp only [addBreakpoints] at h
    cases h
    exact hx
  | cons b rest ih =>
    intro acc l h x hx
    simp only [addBreakpoints] at h
    split at h
    · cases h
    · split at h
      · exact ih h x hx
      · exact ih h x (List.mem_append_left _ hx)

theorem addBreakpoints_ok_mem {bps : List ℚ} :
    ∀ {acc l : List ℚ}, addBreakpoints acc bps = Except.ok l →
      ∀ b ∈ bps, b ∈ l := by
  induction bps with
  | nil =>
    intro acc l _ b hb
    cases hb
  | cons b rest ih =>
    intro acc l h x hx
    simp only [addBreakpoints] at h
    split at h
    · cases h
    · rcases List.mem_cons.mp hx with rfl | hx'
      · split at h
        · exact addBreakpoints_ok_sup h x (by assumption)
        · exact addBreakpoints_ok_sup h x (List.mem_append_right _ (List.mem_singleton.mpr rfl))
      · split at h
        · exact ih h x hx'
        · exact ih h x hx'

theorem addBreakpoints_nodup {bps : List ℚ} :
    ∀ {acc l : List ℚ}, acc.Nodup → addBreakpoints acc bps = Except.ok l →
      l.Nodup := by
  induction bps with
  | nil =>
    intro acc l ha h
    simp only [addBreakpoints] at h
    cases h
    exact ha
  | cons b rest ih =>
    intro acc l ha h
    simp only [addBreakpoints] at h
    split at h
    · cases h
    · split at h
      · exact ih ha h
      · refine ih ?_ h
        simp only [List.nodup_append, List.nodup_singleton, List.disjoint_singleton]
        exact ⟨ha, trivial, by assumption⟩

theorem addBreakpoints_ok_iff (bps : List ℚ) :
    ∀ acc : List ℚ, (∃ l, addBreakpoints acc bps = Except.ok l) ↔
      ∀ b ∈ bps, 1 ≤ b := by
  induction bps with
  | nil =>
    intro acc
    simp [addBreakpoints]
  | cons b rest ih =>
    intro acc
    simp only [addBreakpoints, List.mem_cons]
    constructor
    · rintro ⟨l, h⟩ x hx
      split at h
      · cases h
      · rcases hx with rfl | hx'
        · exact not_lt.mp (by assumption)
        · split at h
          · exact ((ih acc).mp ⟨l, h⟩) x hx'
          · exact ((ih (acc ++ [b])).mp ⟨l, h⟩) x hx'
    · intro hall
      have hb : ¬ b < 1 := not_lt.mpr (hall b (Or.inl rfl))
      rw [if_neg hb]
      have hrest : ∀ x ∈ rest, 1 ≤ x := fun x hx => hall x (Or.inr hx)
      split
      · exact (ih acc).mpr hrest
      · exact (ih (acc ++ [b])).mpr hrest

theorem mem_finishSizes {i x : ℚ} {c : List ℚ} :
    x ∈ finishSizes i c ↔ (x ∈ c ∧ x < i) ∨ x = i := by
  simp [finishSizes, List.mem_filter, decide_eq_true_eq]

theorem finishSizes_nodup {i : ℚ} {c : List ℚ} (h : c.Nodup) :
    (finishSizes i c).Nodup := by
  refine ((List.perm_insertionSort (· ≤ ·) _).nodup_iff).mpr ?_
  simp only [List.nodup_append, List.nodup_singleton, List.disjoint_singleton]
  refine ⟨h.filter _, trivial, ?_⟩
  intro hmem
  have := (List.mem_filter.mp hmem).2
  simp only [decide_eq_true_eq] at this
  exact absurd this (lt_irrefl i)

theorem finishSizes_sorted {i : ℚ} {c : List ℚ} (h : c.Nodup) :
    (finishSizes i c).Sorted (· < ·) :=
  (List.sorted_insertionSort (· ≤ ·) _).lt_of_le (finishSizes_nodup h)

theorem intrinsic_mem_finishSizes (i : ℚ) (c : List ℚ) : i ∈ finishSizes i c :=
  mem_finishSizes.mpr (Or.inr rfl)

theorem capped_mem_finishSizes {v : ℚ} (i : ℚ) {c : List ℚ} (hv : v ∈ c) :
    min v i ∈ finishSizes i c := by
  rcases lt_or_ge v i with hlt | hge
  · rw [min_eq_left hlt.le]
    exact mem_finishSizes.mpr (Or.inl ⟨hv, hlt⟩)
  · rw [min_eq_right hge]
    exact intrinsic_mem_finishSizes i c

end Sharp

namespace Sharp

theorem fluidPlan_eq_map {w h v : ℚ} {o : FluidOptions}
    (hv : optionFixed o = some v) (h1 : 1 ≤ v) :
    fluidPlan w h o = (fluidCandidates v o.srcSetBreakpoints).map
      (finishSizes (intrinsicFixed o w h)) := by
  simp [fluidPlan, hv, not_lt.mpr h1]

theorem fluidPlan_ok_elim {w h v : ℚ} {o : FluidOptions} {l : List ℚ}
    (hv : optionFixed o = some v) (h1 : 1 ≤ v)
    (hok : fluidPlan w h o = Except.ok l) :
    ∃ c, fluidCandidates v o.srcSetBreakpoints = Except.ok c ∧
      l = finishSizes (intrinsicFixed o w h) c := by
  rw [fluidPlan_eq_map hv h1] at hok
  cases hc : fluidCandidates v o.srcSetBreakpoints with
  | error e => rw [hc] at hok; cases hok
  | ok c =>
    rw [hc] at hok
    simp only [Except.map] at hok
    cases hok
    exact ⟨c, rfl, rfl⟩

theorem mem_v_fluidCandidates {v : ℚ} {bps c : List ℚ}
    (h : fluidCandidates v bps = Except.ok c) : v ∈ c := by
  by_cases hbps : bps.isEmpty
  · simp only [fluidCandidates, hbps, if_pos] at h
    cases h
    exact List.mem_cons_self _ _
  · simp only [fluidCandidates, hbps, if_neg, Bool.false_eq_true] at h
    exact addBreakpoints_ok_sup h v (List.mem_singleton.mpr rfl)

theorem default_candidates_nodup {v : ℚ} (h1 : 1 ≤ v) :
    ([v, v / 4, v / 2, v * 1.5, v * 2] : List ℚ).Nodup := by
  have hv0 : 0 < v := lt_of_lt_of_le one_pos h1
  simp only [List.nodup_cons, List.mem_cons, List.mem_singleton,
    List.not_mem_nil, or_false, not_or, List.nodup_nil, and_true]
  norm_num
  constructor
  · exact ⟨by intro h; linarith, by intro h; linarith,
      by intro h; linarith, by intro h; linarith⟩
  constructor
  · exact ⟨by intro h; linarith, by intro h; linarith, by intro h; linarith⟩
  constructor
  · exact ⟨by intro h; linarith, by intro h; linarith⟩
  · intro h; linarith

theorem fluidCandidates_nodup {v : ℚ} {bps c : List ℚ} (h1 : 1 ≤ v)
    (h : fluidCandidates v bps = Except.ok c) : c.Nodup := by
  by_cases hbps : bps.isEmpty
  · simp only [fluidCandidates, hbps, if_pos] at h
    cases h
    exact default_candidates_nodup h1
  · simp only [fluidCandidates, hbps, if_neg, Bool.false_eq_true] at h
    exact addBreakpoints_nodup (List.nodup_singleton v) h

theorem cappedFixed_eq {v w h : ℚ} {o : FluidOptions}
    (hv : optionFixed o = some v) (h1 : 1 ≤ v) :
    cappedFixed o w h = some (min v (intrinsicFixed o w h)) := by
  have hv0 : v ≠ 0 := by intro h0; rw [h0] at h1; norm_num at h1
  by_cases hmw : o.maxWidth = none
  · have hfd : fixedDimension o = Dim.maxHeight := by simp [fixedDimension, hmw]
    have hmh : o.maxHeight = some v := by
      simpa [optionFixed, hfd] using hv
    simp [cappedFixed, hfd, cappedMaxHeight, hmh, hv0, intrinsicFixed]
  · have hfd : fixedDimension o = Dim.maxWidth := by simp [fixedDimension, hmw]
    have hmw' : o.maxWidth = some v := by
      simpa [optionFixed, hfd] using hv
    simp [cappedFixed, hfd, cappedMaxWidth, hmw', hv0, intrinsicFixed]

theorem fluidPlan_ok_props {w h v : ℚ} {o : FluidOptions} {l : List ℚ}
    (hv : optionFixed o = some v) (h1 : 1 ≤ v)
    (hok : fluidPlan w h o = Except.ok l) :
    min v (intrinsicFixed o w h) ∈ l ∧ intrinsicFixed o w h ∈ l ∧
      l.Nodup ∧ l.Sorted (· < ·) := by
  obtain ⟨c, hc, rfl⟩ := fluidPlan_ok_elim hv h1 hok
  have hnd := fluidCandidates_nodup h1 hc
  exact ⟨capped_mem_finishSizes _ (mem_v_fluidCandidates hc),
    intrinsic_mem_finishSizes _ _, finishSizes_nodup hnd, finishSizes_sorted hnd⟩

end Sharp

namespace Sharp

/-- C1: for every source image and positive base value on the fixed axis with
no custom breakpoints, the planned fluid size list contains the capped base
value (min of the option and the intrinsic size) and the intrinsic size on
the fixed axis, has no duplicates, and is sorted strictly ascending; and
concretely, for intrinsic width 1600 and maxWidth 800 the final sizes are
200, 400, 800, 1200, 1600. -/
theorem fluid_default_breakpoints_sizes {w h v : ℚ} {o : FluidOptions}
    (hbps : o.srcSetBreakpoints = []) (hv : optionFixed o = some v)
    (h1 : 1 ≤ v) :
    (∃ l, fluidPlan w h o = Except.ok l ∧
      min v (intrinsicFixed o w h) ∈ l ∧ intrinsicFixed o w h ∈ l ∧
      l.Nodup ∧ l.Sorted (· < ·)) ∧
    fluidPlan 1600 900 ⟨some 800, none, [], "cover", none⟩ =
      Except.ok [200, 400, 800, 1200, 1600] := by
  constructor
  · have hplan : fluidPlan w h o =
        Except.ok (finishSizes (intrinsicFixed o w h)
          [v, v / 4, v / 2, v * 1.5, v * 2]) := by
      rw [fluidPlan_eq_map hv h1]
      simp [fluidCandidates, hbps, Except.map]
    obtain ⟨hm, hi, hnd, hs⟩ := fluidPlan_ok_props hv h1 hplan
    exact ⟨_, hplan, hm, hi, hnd, hs⟩
  · simp +decide [fluidPlan, optionFixed, fixedDimension, fluidCandidates,
      finishSizes, intrinsicFixed, Except.map]
    norm_num [List.filter_cons, List.insertionSort, List.orderedInsert,
      decide_eq_true_eq]

/-- Witness for C1 at intrinsic 1600 by 900, maxWidth 800. -/
theorem fluid_default_breakpoints_sizes_witness :
    ∃ l, fluidPlan 1600 900 ⟨some 800, none, [], "cover", none⟩ =
        Except.ok l ∧
      min 800 (intrinsicFixed ⟨some 800, none, [], "cover", none⟩ 1600 900) ∈ l ∧
      intrinsicFixed ⟨some 800, none, [], "cover", none⟩ 1600 900 ∈ l ∧
      l.Nodup ∧ l.Sorted (· < ·) :=
  (fluid_default_breakpoints_sizes (w := 1600) (h := 900)
    (o := ⟨some 800, none, [], "cover", none⟩) rfl
    (by simp [optionFixed, fixedDimension]) (by norm_num)).1

theorem density_one_lookup_aux {w h v : ℚ} {o : FluidOptions} {l : List ℚ}
    (hv : optionFixed o = some v) (h1 : 1 ≤ v)
    (hok : fluidPlan w h o = Except.ok l) :
    min v (intrinsicFixed o w h) ∈ l ∧
    ∃ i, l.findIdx? (densityOnePred o w h) = some i ∧ i < l.length ∧
      l[i]? = some (min v (intrinsicFixed o w h)) := by
  have hmem := (fluidPlan_ok_props hv h1 hok).1
  have hcap : cappedFixed o w h = some (min v (intrinsicFixed o w h)) :=
    cappedFixed_eq hv h1
  have hp : densityOnePred o w h (min v (intrinsicFixed o w h)) = true := by
    simp [densityOnePred, hcap]
  have hsome : (l.findIdx? (densityOnePred o w h)).isSome = true := by
    rw [List.findIdx?_isSome, List.any_eq_true]
    exact ⟨_, hmem, hp⟩
  obtain ⟨i, hi⟩ := Option.isSome_iff_exists.mp hsome
  obtain ⟨hlt, hpi, -⟩ := List.findIdx?_eq_some_iff_getElem.mp hi
  have hgot : l[i] = min v (intrinsicFixed o w h) := by
    have := hpi
    simp only [densityOnePred, decide_eq_true_eq, hcap,
      Option.some.injEq] at this
    exact this.symm
  exact ⟨hmem, i, hi, hlt, by rw [List.getElem?_eq_getElem hlt, hgot]⟩

/-- C10: for every fluid call with a set base option at least 1 and positive
intrinsic dimensions, whenever the planning pipeline succeeds the density-one
lookup succeeds — the final size list contains the capped base value
min(option, intrinsic), findIndex returns a valid index, and the element
access at that index is in bounds and yields the capped base value. -/
theorem fluid_density_one_lookup {w h v : ℚ} {o : FluidOptions} {l : List ℚ}
    (hv : optionFixed o = some v) (h1 : 1 ≤ v) (hw : 0 < w) (hh : 0 < h)
    (hok : fluidPlan w h o = Except.ok l) :
    min v (intrinsicFixed o w h) ∈ l ∧
    ∃ i, l.findIdx? (densityOnePred o w h) = some i ∧ i < l.length ∧
      l[i]? = some (min v (intrinsicFixed o w h)) :=
  density_one_lookup_aux hv h1 hok

/-- Witness for C10 at intrinsic 1600 by 900, maxWidth 800. -/
theorem fluid_density_one_lookup_witness :
    min 800 (intrinsicFixed ⟨some 800, none, [], "cover", none⟩ 1600 900) ∈
      ([200, 400, 800, 1200, 1600] : List ℚ) ∧
    ∃ i, ([200, 400, 800, 1200, 1600] : List ℚ).findIdx?
        (densityOnePred ⟨some 800, none, [], "cover", none⟩ 1600 900) = some i ∧
      i < ([200, 400, 800, 1200, 1600] : List ℚ).length ∧
      ([200, 400, 800, 1200, 1600] : List ℚ)[i]? =
        some (min 800 (intrinsicFixed ⟨some 800, none, [], "cover", none⟩ 1600 900)) :=
  fluid_density_one_lookup (w := 1600) (h := 900)
    (o := ⟨some 800, none, [], "cover", none⟩)
    (by simp [optionFixed, fixedDimension]) (by norm_num) (by norm_num)
    (by norm_num)
    (by simp +decide [fluidPlan, optionFixed, fixedDimension, fluidCandidates,
          finishSizes, intrinsicFixed, Except.map]
        norm_num [List.filter_cons, List.insertionSort, List.orderedInsert,
          decide_eq_true_eq])

end Sharp

namespace Sharp

/-- C2 counterexample: with maxWidth 1600 equal to the intrinsic width 1600,
the base value is at least the intrinsic size yet the planned list is
400, 800, 1600 — three elements, not the intrinsic size alone (the derived
sizes base/4 and base/2 survive the filter). -/
theorem fluid_collapse_counterexample :
    (1600 : ℚ) ≤ 1600 ∧
    fluidPlan 1600 900 ⟨some 1600, none, [], "cover", none⟩ =
      Except.ok [400, 800, 1600] ∧
    ([400, 800, 1600] : List ℚ) ≠ [1600] := by
  refine ⟨le_refl _, ?_, by norm_num⟩
  simp +decide [fluidPlan, optionFixed, fixedDimension, fluidCandidates,
    finishSizes, intrinsicFixed, Except.map]
  norm_num [List.filter_cons, List.insertionSort, List.orderedInsert,
    decide_eq_true_eq]

/-- C2 amended: with default breakpoints, for every base option at least the
intrinsic size on the fixed axis, no planned size exceeds the intrinsic size
and the intrinsic size is in the list (so it is the largest element), but the
list collapses to exactly the intrinsic size alone if and only if the
intrinsic size is at most a quarter of the base option — otherwise the
smaller derived sizes base/4 and base/2 remain below it. -/
theorem fluid_base_ge_intrinsic_amended {w h v : ℚ} {o : FluidOptions}
    (hbps : o.srcSetBreakpoints = []) (hv : optionFixed o = some v)
    (h1 : 1 ≤ v) (hge : intrinsicFixed o w h ≤ v) :
    ∃ l, fluidPlan w h o = Except.ok l ∧
      (∀ s ∈ l, s ≤ intrinsicFixed o w h) ∧
      intrinsicFixed o w h ∈ l ∧
      (l = [intrinsicFixed o w h] ↔ intrinsicFixed o w h ≤ v / 4) := by
  have hv0 : (0 : ℚ) < v := lt_of_lt_of_le one_pos h1
  have hplan : fluidPlan w h o =
      Except.ok (finishSizes (intrinsicFixed o w h)
        [v, v / 4, v / 2, v * 1.5, v * 2]) := by
    rw [fluidPlan_eq_map hv h1]
    simp [fluidCandidates, hbps, Except.map]
  refine ⟨_, hplan, ?_, intrinsic_mem_finishSizes _ _, ?_⟩
  · intro s hs
    rcases mem_finishSizes.mp hs with ⟨-, hlt⟩ | rfl
    · exact hlt.le
    · exact le_refl _
  · constructor
    · intro heq
      by_contra hno
      push_neg at hno
      have h4 : v / 4 ∈ finishSizes (intrinsicFixed o w h)
          [v, v / 4, v / 2, v * 1.5, v * 2] :=
        mem_finishSizes.mpr (Or.inl ⟨by simp, hno⟩)
      rw [heq] at h4
      have := List.mem_singleton.mp h4
      linarith
    · intro hle
      have hfil : ([v, v / 4, v / 2, v * 1.5, v * 2].filter
          (fun s => s < intrinsicFixed o w h)) = [] := by
        rw [List.filter_eq_nil_iff]
        intro a ha
        simp only [List.mem_cons, List.mem_singleton, List.not_mem_nil,
          or_false] at ha
        simp only [decide_eq_true_eq, not_lt]
        rcases ha with rfl | rfl | rfl | rfl | rfl
        · exact hge
        · exact hle
        · linarith
        · linarith
        · linarith
      unfold finishSizes
      rw [hfil]
      rfl

/-- Witness for the amended C2 at intrinsic 1600 by 900, maxWidth 1600. -/
theorem fluid_base_ge_intrinsic_amended_witness :
    ∃ l, fluidPlan 1600 900 ⟨some 1600, none, [], "cover", none⟩ =
        Except.ok l ∧
      (∀ s ∈ l,
        s ≤ intrinsicFixed ⟨some 1600, none, [], "cover", none⟩ 1600 900) ∧
      intrinsicFixed ⟨some 1600, none, [], "cover", none⟩ 1600 900 ∈ l ∧
      (l = [intrinsicFixed ⟨some 1600, none, [], "cover", none⟩ 1600 900] ↔
        intrinsicFixed ⟨some 1600, none, [], "cover", none⟩ 1600 900 ≤
          1600 / 4) :=
  fluid_base_ge_intrinsic_amended (w := 1600) (h := 900)
    (o := ⟨some 1600, none, [], "cover", none⟩) rfl
    (by simp [optionFixed, fixedDimension]) (by norm_num)
    (by simp [intrinsicFixed, fixedDimension])

/-- C3 counterexample: the breakpoint one half is strictly positive, yet the
call fails — the code rejects every breakpoint below 1, not only those not
greater than 0. -/
theorem fluid_breakpoint_counterexample :
    (0 : ℚ) < 1 / 2 ∧
    fluidPlan 1600 900 ⟨some 800, none, [1 / 2], "cover", none⟩ =
      Except.error
        "All ints in srcSetBreakpoints should be positive ints larger than zero (> 0)" := by
  constructor
  · norm_num
  · simp +decide [fluidPlan, optionFixed, fixedDimension, fluidCandidates,
      addBreakpoints, Except.map]
    norm_num

/-- C3 amended: with explicit breakpoints and a valid base option, the call
fails if and only if some breakpoint is below 1 (the code enforces the
integer-oriented bound breakpoint ≥ 1, so strictly positive fractional
breakpoints below 1 are also rejected); when the loop succeeds the candidate
list has no duplicates (breakpoints equal to a value already present, such
as the base value, are dropped) and every supplied breakpoint value is
present. -/
theorem fluid_breakpoints_error_iff {w h v : ℚ} {o : FluidOptions}
    (hv : optionFixed o = some v) (h1 : 1 ≤ v)
    (hbps : o.srcSetBreakpoints ≠ []) :
    ((∃ l, fluidPlan w h o = Except.ok l) ↔
      ∀ b ∈ o.srcSetBreakpoints, 1 ≤ b) ∧
    (∀ l, addBreakpoints [v] o.srcSetBreakpoints = Except.ok l →
      l.Nodup ∧ ∀ b ∈ o.srcSetBreakpoints, b ∈ l) := by
  have hcand : fluidCandidates v o.srcSetBreakpoints =
      addBreakpoints [v] o.srcSetBreakpoints := by
    simp [fluidCandidates, List.isEmpty_iff, hbps]
  constructor
  · rw [fluidPlan_eq_map hv h1, hcand]
    constructor
    · rintro ⟨l, hl⟩
      cases hab : addBreakpoints [v] o.srcSetBreakpoints with
      | error e => rw [hab] at hl; cases hl
      | ok c => exact (addBreakpoints_ok_iff _ _).mp ⟨c, hab⟩
    · intro hall
      obtain ⟨c, hc⟩ := (addBreakpoints_ok_iff _ _).mpr hall
      exact ⟨_, by rw [hc]; rfl⟩
  · intro l hl
    exact ⟨addBreakpoints_nodup (List.nodup_singleton v) hl,
      addBreakpoints_ok_mem hl⟩

/-- Witness for the amended C3 with breakpoints 400, 800, 400 and
maxWidth 800 (the duplicate 400 and the base duplicate 800 are dropped). -/
theorem fluid_breakpoints_error_iff_witness :
    ((∃ l, fluidPlan 1600 900 ⟨some 800, none, [400, 800, 400], "cover", none⟩ =
        Except.ok l) ↔
      ∀ b ∈ ([400, 800, 400] : List ℚ), 1 ≤ b) ∧
    (∀ l, addBreakpoints [800] ([400, 800, 400] : List ℚ) = Except.ok l →
      l.Nodup ∧ ∀ b ∈ ([400, 800, 400] : List ℚ), b ∈ l) :=
  fluid_breakpoints_error_iff (w := 1600) (h := 900)
    (o := ⟨some 800, none, [400, 800, 400], "cover", none⟩)
    (by simp [optionFixed, fixedDimension]) (by norm_num) (by simp)

end Sharp

namespace Sharp

theorem fixed_filter_empty_iff {v intrinsic : ℚ} (hv : 0 < v) :
    (([v, v * 1.5, v * 2] : List ℚ).filter (fun s => s ≤ intrinsic)) = [] ↔
      intrinsic < v := by
  constructor
  · intro hemp
    by_contra hno
    push_neg at hno
    have hvmem : v ∈ ([v, v * 1.5, v * 2] : List ℚ).filter
        (fun s => s ≤ intrinsic) :=
      List.mem_filter.mpr ⟨by simp, by simpa using hno⟩
    rw [hemp] at hvmem
    cases hvmem
  · intro hlt
    rw [List.filter_eq_nil_iff]
    intro a ha
    simp only [List.mem_cons, List.mem_singleton, List.not_mem_nil,
      or_false] at ha
    simp only [decide_eq_true_eq, not_le]
    rcases ha with rfl | rfl | rfl
    · exact hlt
    · linarith
    · linarith

/-- C4: for every fixed-mode call with positive requested size, the filter
step leaves the candidate list empty exactly when the requested size exceeds
the intrinsic size; in that case the call still succeeds with exactly one
variant whose size is the intrinsic size, and the non-fatal console warning
flag is set.  (The planning function is total: no failure is possible.) -/
theorem fixed_exceeds_source_single_variant {v intrinsic : ℚ} (hv : 0 < v) :
    (fixedSizes v intrinsic = ([intrinsic], true) ↔ intrinsic < v) ∧
    (intrinsic < v → fixedSortedSizes v intrinsic = [intrinsic]) := by
  constructor
  · constructor
    · intro heq
      by_cases hemp : (([v, v * 1.5, v * 2] : List ℚ).filter
          (fun s => s ≤ intrinsic)) = []
      · exact (fixed_filter_empty_iff hv).mp hemp
      · simp [fixedSizes, List.isEmpty_iff, hemp] at heq
    · intro hlt
      simp [fixedSizes, List.isEmpty_iff,
        (fixed_filter_empty_iff hv).mpr hlt]
  · intro hlt
    simp [fixedSortedSizes, fixedSizes, List.isEmpty_iff,
      (fixed_filter_empty_iff hv).mpr hlt]

/-- Witness for C4 at the spec example: requested width 400, intrinsic
width 300. -/
theorem fixed_exceeds_source_single_variant_witness :
    ((fixedSizes 400 300 = ([300], true) ↔ (300 : ℚ) < 400) ∧
      ((300 : ℚ) < 400 → fixedSortedSizes 400 300 = [300])) ∧
    fixedSizes 400 300 = ([300], true) := by
  have h := @fixed_exceeds_source_single_variant 400 300 (by norm_num)
  exact ⟨h, h.1.mpr (by norm_num)⟩

theorem entries_eq_zipWith {srcs : List String} (h : srcs.length ≤ 3) :
    fixedSrcSetEntries srcs =
      List.zipWith (fun s l => s ++ " " ++ l) srcs ["1x", "1.5x", "2x"] := by
  rcases srcs with _ | ⟨a, _ | ⟨b, _ | ⟨c, _ | ⟨d, rest⟩⟩⟩⟩
  · rfl
  · rfl
  · rfl
  · rfl
  · simp at h

/-- C5: for every fixed-mode call, at most three sizes survive and the srcSet
entries pair each source string with a density label purely by ascending-size
position, in the fixed order 1x, 1.5x, 2x, regardless of how many of the
three candidate sizes survived the filter. -/
theorem fixed_density_labels (v intrinsic : ℚ) (srcOf : ℚ → String) :
    (fixedSortedSizes v intrinsic).length ≤ 3 ∧
    fixedSrcSetEntries ((fixedSortedSizes v intrinsic).map srcOf) =
      List.zipWith (fun s l => s ++ " " ++ l)
        ((fixedSortedSizes v intrinsic).map srcOf) ["1x", "1.5x", "2x"] := by
  have hlen : (fixedSortedSizes v intrinsic).length ≤ 3 := by
    unfold fixedSortedSizes
    rw [List.length_insertionSort]
    by_cases hemp : (([v, v * 1.5, v * 2] : List ℚ).filter
        (fun s => s ≤ intrinsic)) = []
    · simp [fixedSizes, List.isEmpty_iff, hemp]
    · simp only [fixedSizes, List.isEmpty_iff, hemp, if_false]
      simpa using List.length_filter_le _ _
  exact ⟨hlen, entries_eq_zipWith (by simpa using hlen)⟩

/-- C6 counterexample: with maxWidth 2000, maxHeight 1000, fit inside,
intrinsic 1000 by 1000 and planned size 500, the code derives height 500 from
the capped ratio, not height 250 from the explicit maxHeight/maxWidth ratio
the claim prescribes. -/
theorem fluid_inside_fit_counterexample :
    transformHeightArg ⟨some 2000, some 1000, [], "inside", none⟩
        1000 1000 500 = some 500 ∧
    round ((500 : ℚ) * (1000 / 2000)) = (250 : ℤ) ∧
    transformHeightArg ⟨some 2000, some 1000, [], "inside", none⟩
        1000 1000 500 ≠
      some (round ((500 : ℚ) * (1000 / 2000))) := by
  have h1 : transformHeightArg ⟨some 2000, some 1000, [], "inside", none⟩
      1000 1000 500 = some 500 := by
    simp +decide [transformHeightArg]
    norm_num
  have h2 : round ((500 : ℚ) * (1000 / 2000)) = (250 : ℤ) := by norm_num
  refine ⟨h1, h2, ?_⟩
  rw [h1, h2]
  simp

/-- C6 amended: when both maxWidth and maxHeight are explicitly set, each
variant's height argument is the planned size times the explicit
maxHeight/maxWidth ratio rounded to nearest — except when fit is inside, in
which case the ratio of the capped values min(maxHeight, intrinsicHeight) /
min(maxWidth, intrinsicWidth) is used instead. -/
theorem fluid_both_max_height_amended {o : FluidOptions} {mw mh : ℚ}
    (w h size : ℚ) (hmw : o.maxWidth = some mw) (hmh : o.maxHeight = some mh) :
    (o.fit ≠ "inside" →
      transformHeightArg o w h size = some (round (size * (mh / mw)))) ∧
    (o.fit = "inside" →
      transformHeightArg o w h size =
        some (round (size * (min mh h / min mw w)))) := by
  constructor
  · intro hf
    simp [transformHeightArg, hmw, hmh, hf]
  · intro hf
    simp [transformHeightArg, hmw, hmh, hf]

/-- Witness for the amended C6 with fit cover at the counterexample's
numbers. -/
theorem fluid_both_max_height_amended_witness :
    (("cover" : String) ≠ "inside" →
      transformHeightArg ⟨some 2000, some 1000, [], "cover", none⟩
          1000 1000 500 = some (round ((500 : ℚ) * (1000 / 2000)))) ∧
    (("cover" : String) = "inside" →
      transformHeightArg ⟨some 2000, some 1000, [], "cover", none⟩
          1000 1000 500 =
        some (round ((500 : ℚ) * (min 1000 1000 / min 2000 1000)))) :=
  fluid_both_max_height_amended (o := ⟨some 2000, some 1000, [], "cover", none⟩)
    1000 1000 500 rfl rfl

end Sharp

namespace Sharp

/-- C7: for every successful fluid call with a valid base option, the sizes
attribute is the caller-supplied options.sizes when a non-empty one is given
and otherwise the default template built from presentationWidth, and
presentationWidth is the rendered width of the density-one variant — the
variant whose planned fixed-axis size is the capped base value
min(option, intrinsic). -/
theorem fluid_sizes_attribute (variantWidth : ℚ → ℤ) {w h v : ℚ}
    {o : FluidOptions} {l : List ℚ}
    (hv : optionFixed o = some v) (h1 : 1 ≤ v)
    (hok : fluidPlan w h o = Except.ok l) :
    fluidSizesAttr o variantWidth w h = Except.ok (some (jsStringOr o.sizes
      (defaultSizes (variantWidth (min v (intrinsicFixed o w h)))))) ∧
    (∀ s, o.sizes = some s → s ≠ "" →
      jsStringOr o.sizes
        (defaultSizes (variantWidth (min v (intrinsicFixed o w h)))) = s) ∧
    (o.sizes = none →
      jsStringOr o.sizes
        (defaultSizes (variantWidth (min v (intrinsicFixed o w h)))) =
        defaultSizes (variantWidth (min v (intrinsicFixed o w h)))) := by
  obtain ⟨-, i, hfind, hlt, hget⟩ := density_one_lookup_aux hv h1 hok
  have hmap : (l.map variantWidth)[i]? =
      some (variantWidth (min v (intrinsicFixed o w h))) := by
    rw [List.getElem?_map, hget]
    rfl
  refine ⟨?_, ?_, ?_⟩
  · unfold fluidSizesAttr
    rw [hok]
    simp only [Except.map]
    rw [hfind]
    simp only [Option.some_bind]
    rw [hmap]
    rfl
  · intro s hs hne
    simp [jsStringOr, hs, hne]
  · intro hs
    simp [jsStringOr, hs]

/-- Witness for C7 at intrinsic 1600 by 900, maxWidth 800, with the rounding
width function. -/
theorem fluid_sizes_attribute_witness :
    fluidSizesAttr ⟨some 800, none, [], "cover", none⟩ (fun q => round q)
        1600 900 =
      Except.ok (some (jsStringOr none (defaultSizes (round
        (min (800 : ℚ)
          (intrinsicFixed ⟨some 800, none, [], "cover", none⟩ 1600 900)))))) ∧
    (∀ s, (none : Option String) = some s → s ≠ "" →
      jsStringOr none (defaultSizes (round (min (800 : ℚ)
        (intrinsicFixed ⟨some 800, none, [], "cover", none⟩ 1600 900)))) = s) ∧
    ((none : Option String) = none →
      jsStringOr none (defaultSizes (round (min (800 : ℚ)
        (intrinsicFixed ⟨some 800, none, [], "cover", none⟩ 1600 900)))) =
        defaultSizes (round (min (800 : ℚ)
          (intrinsicFixed ⟨some 800, none, [], "cover", none⟩ 1600 900)))) :=
  fluid_sizes_attribute (fun q => round q) (w := 1600) (h := 900)
    (o := ⟨some 800, none, [], "cover", none⟩)
    (l := [200, 400, 800, 1200, 1600])
    (by simp [optionFixed, fixedDimension]) (by norm_num)
    (by simp +decide [fluidPlan, optionFixed, fixedDimension, fluidCandidates,
          finishSizes, intrinsicFixed, Except.map]
        norm_num [List.filter_cons, List.insertionSort, List.orderedInsert,
          decide_eq_true_eq])

end Sharp

theorem mem_ensureDir (g : Directory.FS) (x : String) :
    x ∈ Directory.ensureDir g x := by
  by_cases hx : x ∈ g
  · simp [Directory.ensureDir, hx]
  · simp [Directory.ensureDir, hx]

theorem ensureDir_of_mem {g : Directory.FS} {x : String} (hx : x ∈ g) :
    Directory.ensureDir g x = g := by
  simp [Directory.ensureDir, hx]

/-- C8: for every context root, path and filesystem state, read returns an
absent value (none, never an error — the function is total) when the
directory does not exist, and a resource whose id and path both equal the
requested path when it does. -/
theorem directory_read_spec (root p : String) (fs : Directory.FS) :
    (Directory.directoryExists fs (Directory.makePath root p) = false →
      Directory.read root p fs = none) ∧
    (Directory.directoryExists fs (Directory.makePath root p) = true →
      ∃ r, Directory.read root p fs = some r ∧ r.id = p ∧ r.path = p) := by
  constructor
  · intro hne
    simp [Directory.read, hne]
  · intro hex
    exact ⟨{ id := p, path := p, msg := Directory.message p },
      by simp [Directory.read, hex], rfl, rfl⟩

/-- Witness for C8: reading a missing directory and an existing one. -/
theorem directory_read_spec_witness :
    Directory.read "r" "d" [] = none ∧
    ∃ r, Directory.read "r" "d" ["r/d"] = some r ∧ r.id = "d" ∧ r.path = "d" :=
  ⟨(directory_read_spec "r" "d" []).1 (by decide),
    (directory_read_spec "r" "d" ["r/d"]).2 (by decide)⟩

/-- C9: for every context root, path and filesystem state, create is
idempotent — calling it again on the state it produced returns the same
resource and the same state, and the resource of every create call is
present (an existing directory is never a failure): id and path equal the
requested path. -/
theorem directory_create_idempotent (root p : String) (fs : Directory.FS) :
    Directory.create root p ((Directory.create root p fs).2) =
      Directory.create root p fs ∧
    (Directory.create root p fs).1 =
      some { id := p, path := p, msg := Directory.message p } := by
  have hfull := mem_ensureDir fs (Directory.makePath root p)
  have h1 : Directory.create root p fs =
      (some { id := p, path := p, msg := Directory.message p },
        Directory.ensureDir fs (Directory.makePath root p)) := by
    simp [Directory.create, Directory.read, Directory.directoryExists, hfull]
  have h2 : Directory.create root p
        (Directory.ensureDir fs (Directory.makePath root p)) =
      (some { id := p, path := p, msg := Directory.message p },
        Directory.ensureDir fs (Directory.makePath root p)) := by
    simp [Directory.create, ensureDir_of_mem hfull, Directory.read,
      Directory.directoryExists, hfull]
  constructor
  · rw [h1]
    exact h2
  · rw [h1]
